import Mathlib

/-!
Verification of the Dispersa design-token compiler core against its
natural-language specification.  Each section shallowly embeds the relevant
TypeScript source (files under `packages/core/src` and the pipeline module)
as executable Lean definitions and proves the specified properties.

JSON-ish runtime values are embedded as the `Value` sum type (the spec's
"Prototype-based JSON values become tagged variants" design note).
-/

namespace Dispersa

/-- JSON-like runtime value, as produced by parsing token documents.
`num` carries finite JS numbers as rationals; `nan` stands for the
non-finite JS numbers (NaN and the infinities), which arise only from
host-level parsing/arithmetic on malformed inputs. -/
inductive Value where
  | null : Value
  | bool (b : Bool) : Value
  | num (q : ℚ) : Value
  | nan : Value
  | str (s : String) : Value
  | arr (elems : List Value) : Value
  | obj (fields : List (String × Value)) : Value
deriving Repr

mutual

/-- Structural equality on values (JS deep equality for our purposes). -/
def Value.beq : Value → Value → Bool
  | .null, .null => true
  | .nan, .nan => true
  | .bool a, .bool b => a == b
  | .num a, .num b => a == b
  | .str a, .str b => a == b
  | .arr a, .arr b => Value.beqList a b
  | .obj a, .obj b => Value.beqFields a b
  | _, _ => false

def Value.beqList : List Value → List Value → Bool
  | [], [] => true
  | x :: xs, y :: ys => Value.beq x y && Value.beqList xs ys
  | _, _ => false

def Value.beqFields : List (String × Value) → List (String × Value) → Bool
  | [], [] => true
  | (k₁, v₁) :: xs, (k₂, v₂) :: ys => k₁ == k₂ && Value.beq v₁ v₂ && Value.beqFields xs ys
  | _, _ => false

end

instance : BEq Value := ⟨Value.beq⟩

/-- Look up a key of an object value (JS property access `value[key]`);
`none` when the value is not an object or lacks the key. -/
def Value.getKey : Value → String → Option Value
  | .obj fields, key => fields.lookup key
  | _, _ => none

/-- JS `key in obj` check on a value. -/
def Value.hasKey : Value → String → Bool
  | .obj fields, key => fields.any (fun kv => kv.1 == key)
  | _, _ => false

/-- The opening-brace character, used by the alias pattern. -/
def braceL : Char := Char.ofNat 123

/-- The closing-brace character, used by the alias pattern. -/
def braceR : Char := Char.ofNat 125

/-- The double-quote character. -/
def quoteDouble : Char := Char.ofNat 34

/-- The single-quote character. -/
def quoteSingle : Char := Char.ofNat 39

/-- The backtick character. -/
def quoteBacktick : Char := Char.ofNat 96

/-- The backslash character. -/
def backslashChar : Char := Char.ofNat 92

/-- The newline character. -/
def newlineChar : Char := Char.ofNat 10

/-- The null character (model of the TS empty `stringChar`). -/
def nullChar : Char := Char.ofNat 0

/-! Character-list implementations of the string primitives the embedded
code uses (`toLowerCase`, `startsWith`, `endsWith`, single-character
`split` and `replace`), written so they evaluate by kernel reduction. -/

/-- JS `String.prototype.toLowerCase` (ASCII case mapping). -/
def lowerStr (s : String) : String :=
  String.mk (s.data.map Char.toLower)

/-- JS `String.prototype.toUpperCase` on a single character. -/
def upperChar (c : Char) : Char :=
  c.toUpper

/-- JS `String.prototype.startsWith`. -/
def strStartsWith (s p : String) : Bool :=
  p.data.isPrefixOf s.data

/-- JS `String.prototype.endsWith`. -/
def strEndsWith (s p : String) : Bool :=
  p.data.isSuffixOf s.data

/-- JS `String.prototype.split` with a single-character separator. -/
def splitOnCharList (sep : Char) : List Char → List (List Char)
  | [] => [[]]
  | c :: rest =>
    let r := splitOnCharList sep rest
    if c = sep then [] :: r
    else
      match r with
      | [] => [[c]]
      | g :: gs => (c :: g) :: gs

/-- JS `split('-')` on a string. -/
def splitOnDash (s : String) : List String :=
  (splitOnCharList (Char.ofNat 45) s.data).map String.mk

/-- JS `String.prototype.replace` of every occurrence of one character by a
replacement string (`.replace(/\n/g, …)`). -/
def replaceChar (c : Char) (rep : String) (s : String) : String :=
  String.mk (s.data.foldr (fun ch acc => if ch = c then rep.data ++ acc else ch :: acc) [])

/-- Whether `needle` occurs as a contiguous substring of `hay`. -/
def listContainsSub (needle : List Char) : List Char → Bool
  | [] => needle.isEmpty
  | c :: rest => needle.isPrefixOf (c :: rest) || listContainsSub needle rest

/-- Whether `needle` occurs as a substring of `hay`. -/
def strContainsSub (hay needle : String) : Bool :=
  listContainsSub needle.data hay.data

/-- JS `Array.prototype.join`: elements joined by a separator. -/
def joinWith (sep : String) : List String → String
  | [] => ""
  | [x] => x
  | x :: xs => x ++ sep ++ joinWith sep xs

/-- A resolved token (`ResolvedToken` / `InternalResolvedToken` in
`tokens/types`): dot-path `name`, segment `path`, optional `$type`, the
current `$value`, and the pre-alias-resolution `originalValue`.  The
internal provenance fields `_sourceSet` / `_sourceModifier` are carried as
optional fields, mirroring `TokenWithSource` in `renderers/bundlers/css.ts`. -/
structure ResolvedToken where
  name : String
  path : List String
  type : Option String
  value : Value
  originalValue : Value
  description : Option String := none
  sourceSet : Option String := none
  sourceModifier : Option String := none
deriving Repr

/-- Resolved-tokens table: mapping from dot-path name to resolved token
(`ResolvedTokens` in `tokens/types`), embedded as an association list in
insertion order. -/
abbrev ResolvedTokens := List (String × ResolvedToken)

/-! ## Global constants (`part_010`, `@shared/constants`) -/

/-- Default maximum depth for alias resolution.
Prevents infinite recursion in circular references. -/
def DEFAULT_MAX_ALIAS_DEPTH : Nat := 10

/-- Default base font size in pixels for rem/em conversions. -/
def DEFAULT_BASE_FONT_SIZE_PX : Nat := 16

/-! ## Alias detection (`AliasResolver.hasAliases`) and built-in filters -/

/-- Whether a character list contains an opening brace followed (later) by a
closing brace, i.e. the alias pattern `\x7b…\x7d` occurs in the string. -/
def containsAliasChars : List Char → Bool
  | [] => false
  | c :: rest => if c = braceL then rest.any (fun d => d = braceR) else containsAliasChars rest

mutual

/-- Modelled from the spec: `AliasResolver.hasAliases` (the
`@resolution/alias-resolver` module is not under `src/`).  Per §4.6 the
`isAlias()` / `isBase()` filters "introspect `originalValue` for the
`\x7b…\x7d` pattern"; string values are alias references when they contain a
brace-delimited segment, and object/array values may contain alias strings
at any depth (§4.5). -/
def hasAliases : Value → Bool
  | .str s => containsAliasChars s.data
  | .arr elems => hasAliasesList elems
  | .obj fields => hasAliasesFields fields
  | _ => false

def hasAliasesList : List Value → Bool
  | [] => false
  | v :: rest => hasAliases v || hasAliasesList rest

def hasAliasesFields : List (String × Value) → Bool
  | [] => false
  | (_, v) :: rest => hasAliases v || hasAliasesFields rest

end

/-- A filter plugin: predicate over a resolved token (`Filter` in
`processing/processors/filters/types`). -/
structure Filter where
  name : Option String := none
  filter : ResolvedToken → Bool

/-- Built-in filter `isAlias()` (`processing/processors/filters/built-in.ts`):
include only tokens whose `originalValue` carries an alias reference. -/
def isAlias : Filter :=
  { filter := fun token => hasAliases token.originalValue }

/-- Built-in filter `isBase()` (`processing/processors/filters/built-in.ts`):
include only tokens with direct values, i.e. not aliases. -/
def isBase : Filter :=
  { filter := fun token => !hasAliases token.originalValue }

/-! ## Spec-modelled alias resolution depth bound (claim C9)

The `AliasResolver` implementation is not under `src/`; the resolution of a
single alias chain is modelled from the spec (§4.5): a standalone alias
string `"\x7ba.b.c\x7d"` is replaced by the referenced token's value,
recursion follows chained aliases, and exceeding the configured depth bound
(default `DEFAULT_MAX_ALIAS_DEPTH`) is a `CircularReferenceError`. -/

/-- Errors raised during alias resolution. -/
inductive AliasError where
  | circularReference (trail : List String) : AliasError
  | tokenReference (name : String) : AliasError
deriving Repr, DecidableEq

/-- Whether a string is a standalone alias expression `\x7bdot.path\x7d`. -/
def isStandaloneAlias (s : String) : Bool :=
  match s.data with
  | [] => false
  | c :: rest =>
    c = braceL && rest ≠ [] && rest.getLast? = some braceR &&
      (rest.dropLast.all (fun d => d ≠ braceL && d ≠ braceR))

/-- The dot-path inside a standalone alias expression. -/
def aliasPath (s : String) : String :=
  String.mk (s.data.drop 1).dropLast

/-- Modelled from the spec: standalone-alias expansion over the flat table
(§4.5), with the depth counter guarding the chain.  `remaining` is the
number of alias expansions still allowed before reaching the configured
bound; attempting to expand an alias with no budget left raises
`CircularReferenceError` (§8: a chain of depth exactly at the limit
succeeds, at limit+1 it fails). -/
def resolveAliasValue (table : List (String × Value)) :
    Nat → List String → Value → Except AliasError Value
  | remaining, trail, .str s =>
    if isStandaloneAlias s then
      match remaining with
      | 0 => .error (.circularReference (trail ++ [aliasPath s]))
      | r + 1 =>
        match table.lookup (aliasPath s) with
        | none => .error (.tokenReference (aliasPath s))
        | some v => resolveAliasValue table r (trail ++ [aliasPath s]) v
    else
      .ok (.str s)
  | _, _, v => .ok v

/-- A linear alias chain `a0 → a1 → … → a(n-1) → "end"` of `n` aliases. -/
def chainTable (n : Nat) : List (String × Value) :=
  (List.range n).map (fun i =>
    ("a" ++ toString i,
      if i + 1 = n then Value.str "end"
      else Value.str (String.mk (braceL :: ("a" ++ toString (i + 1)).data ++ [braceR]))))

/-- Resolve the value of the named token in a table, modelled from the spec:
the entry point looks the token up and expands its value with a fresh
depth counter. -/
def resolveTokenName (table : List (String × Value)) (name : String) :
    Except AliasError Value :=
  match table.lookup name with
  | none => .error (.tokenReference name)
  | some v => resolveAliasValue table DEFAULT_MAX_ALIAS_DEPTH [name] v

/-! ## TokenPipeline (`part_006`, `TokenPipeline`)

The pipeline's per-stage records are embedded with just the fields the
stages read and write.  The collaborating `ReferenceResolver` instance
method `resolveDeepTokenDocument` is an external collaborator here and is
passed as a function returning `Except` (an exception in TS is `.error`).
The `ValidationHandler` is embedded by explicit state passing: stage
functions additionally return the list of messages reported through the
handler (`handleIssue` wraps the error, `warn` emits the skip notice). -/

/-- Outcome annotation of Stage 5 (`referenceResolution` on
`ReferenceResolvedStage`). -/
inductive RefResolution where
  | resolved
  | skipped
deriving Repr, DecidableEq

/-- Stage-4 output (`PreprocessedStage`): the preprocessed token document. -/
structure PreprocessedStage where
  preprocessedTokens : Value

/-- Stage-5 output (`ReferenceResolvedStage`). -/
structure ReferenceResolvedStage where
  referenceResolvedTokens : Value
  referenceResolution : RefResolution
  referenceResolutionMessage : Option String := none

/-- `TokenPipeline.handleReferenceResolutionError`: report the wrapped error
through the validation handler, emit the skip warning, and carry the
preprocessed document forward marked `skipped`. -/
def handleReferenceResolutionError (stage : PreprocessedStage) (errMsg : String) :
    ReferenceResolvedStage × List String :=
  ({ referenceResolvedTokens := stage.preprocessedTokens,
     referenceResolution := .skipped,
     referenceResolutionMessage := some errMsg },
   [errMsg, "Reference resolution skipped: " ++ errMsg])

/-- `TokenPipeline.resolveReferences` (Stage 5): resolve JSON Pointer
references via the reference resolver; on an exception, delegate to
`handleReferenceResolutionError` instead of aborting. -/
def resolveReferences (resolveDeepTokenDocument : Value → Except String Value)
    (stage : PreprocessedStage) : ReferenceResolvedStage × List String :=
  match resolveDeepTokenDocument stage.preprocessedTokens with
  | .ok resolved =>
    ({ referenceResolvedTokens := resolved, referenceResolution := .resolved }, [])
  | .error e => handleReferenceResolutionError stage e

/-- A transform plugin (`Transform` in `@config`): optional matcher and a
token-to-token mapping. -/
structure Transform where
  name : Option String := none
  matcher : Option (ResolvedToken → Bool) := none
  transform : ResolvedToken → ResolvedToken

/-- Modelled from the spec: `applyFilters` from
`@lib/processing/token-modifier` (module not under `src/`).  Per §4.6 the
set of filters for an output is applied as a logical AND over each token. -/
def applyFilters (tokens : ResolvedTokens) (filters : List Filter) : ResolvedTokens :=
  List.filter (fun entry => filters.all (fun f => f.filter entry.2)) tokens

/-- Modelled from the spec: application of a single matcher-gated transform
(§4.6): a transform with a matcher only rewrites tokens the matcher
accepts. -/
def runTransform (t : Transform) (token : ResolvedToken) : ResolvedToken :=
  match t.matcher with
  | some m => if m token then t.transform token else token
  | none => t.transform token

/-- Modelled from the spec: `applyTransforms` from
`@lib/processing/token-modifier` (module not under `src/`).  Per §4.6
transforms run in list order; each transform sees the output of the
previous. -/
def applyTransforms (tokens : ResolvedTokens) (transforms : List Transform) : ResolvedTokens :=
  transforms.foldl
    (fun ts tr => List.map (fun e => (e.1, runTransform tr e.2)) ts) tokens

/-- `TokenPipeline.applyFilterStage` (Stage 8): apply filters to the
alias-resolved token table when a non-empty filter list is provided. -/
def applyFilterStage (aliasResolvedTokens : ResolvedTokens)
    (filterList : Option (List Filter)) : ResolvedTokens :=
  match filterList with
  | some fs => if fs.length > 0 then applyFilters aliasResolvedTokens fs else aliasResolvedTokens
  | none => aliasResolvedTokens

/-- `TokenPipeline.applyTransformStage` (Stage 9): apply transforms to the
(already filtered) token table when a non-empty transform list is
provided. -/
def applyTransformStage (tokens : ResolvedTokens)
    (transformList : Option (List Transform)) : ResolvedTokens :=
  match transformList with
  | some ts => if ts.length > 0 then applyTransforms tokens ts else tokens
  | none => tokens

/-- Stages 8–9 of `TokenPipeline.resolve`, exactly as sequenced there:
Stage 8 consumes the alias-resolved table, Stage 9 consumes Stage 8's
output. -/
def filterThenTransformStages (aliasResolvedTokens : ResolvedTokens)
    (filterList : Option (List Filter)) (transformList : Option (List Transform)) :
    ResolvedTokens :=
  applyTransformStage (applyFilterStage aliasResolvedTokens filterList) transformList

/-- Result of one permutation's pipeline run, as returned by
`TokenPipeline.resolveAllPermutations` for each permutation. -/
structure PermutationResult where
  tokens : ResolvedTokens
  modifierInputs : List (String × String)

/-- One completion step of the `runSchedule` execution model. -/
def scheduleStep {α β : Type} (f : β → α) (inputs : List β)
    (acc : List (Option α)) (i : Nat) : List (Option α) :=
  match inputs[i]? with
  | some x => acc.set i (some (f x))
  | none => acc

/-- Execution model of `Promise.all(permutationInputs.map(...))` in
`TokenPipeline.resolveAllPermutations`: every permutation gets an
independent task; when a task completes it stores its result in its own
slot of the result list.  `completionOrder` is the order in which the
parallel tasks happen to complete; a slot still `none` corresponds to a
task that never completed. -/
def runSchedule {α β : Type} (f : β → α) (inputs : List β) (completionOrder : List Nat) :
    List (Option α) :=
  completionOrder.foldl
    (fun acc i =>
      match inputs[i]? with
      | some x => acc.set i (some (f x))
      | none => acc)
    (List.replicate inputs.length none)

/-- `TokenPipeline.resolveAllPermutations`, with the per-permutation
pipeline (Stages 2–9 on a fresh engine with the shared file cache)
abstracted as the task body `resolveOne`, run under an arbitrary
completion order. -/
def resolveAllPermutations
    (resolveOne : List (String × String) → PermutationResult)
    (permutationInputs : List (List (String × String)))
    (completionOrder : List Nat) : List (Option PermutationResult) :=
  runSchedule resolveOne permutationInputs completionOrder

/-! ## Schema validator (`lib/validation/validator.ts`, `SchemaValidator`) -/

/-- Classification returned by `SchemaValidator.validateTokenOrGroup`. -/
inductive NodeClass where
  | token
  | group
  | invalid
deriving Repr, DecidableEq

/-- Result record of `SchemaValidator.validateTokenOrGroup`. -/
structure TokenOrGroupResult where
  type : NodeClass
  errors : List String
  message : Option String := none
deriving Repr

/-- Modelled from the spec: validation against the DTCG token JSON schema
(`validateToken`; the schema modules imported by `validator.ts` are not
under `src/`).  Per §3 a token is an object node carrying `$value` or
`$ref` (I1). -/
def validateToken (data : Value) : List String :=
  match data with
  | .obj _ =>
    if data.hasKey "$value" || data.hasKey "$ref" then []
    else ["token must carry $value or $ref"]
  | _ => ["token must be an object"]

/-- Modelled from the spec: validation against the DTCG group JSON schema
(`validateGroup`; the schema modules imported by `validator.ts` are not
under `src/`).  Per §3 and the doc comment in `validator.ts`, groups are
object nodes and MUST NOT have `$value` or `$ref` properties. -/
def validateGroup (data : Value) : List String :=
  match data with
  | .obj _ =>
    if data.hasKey "$value" || data.hasKey "$ref" then
      ["group must not carry $value or $ref"]
    else []
  | _ => ["group must be an object"]

/-- `SchemaValidator.validateTokenOrGroup`: classify a node as token or
group from the structural `$value`/`$ref` hint, falling back between the
two schemas exactly as the source does. -/
def validateTokenOrGroup (obj : Value) : TokenOrGroupResult :=
  let hasValue := obj.hasKey "$value" || obj.hasKey "$ref"
  if hasValue then
    let tokenErrors := validateToken obj
    if tokenErrors.length = 0 then
      { type := .token, errors := [] }
    else
      { type := .invalid, errors := tokenErrors,
        message := some "Object has $value/$ref but failed token validation" }
  else
    let groupErrors := validateGroup obj
    if groupErrors.length = 0 then
      { type := .group, errors := [] }
    else
      let tokenErrors := validateToken obj
      if tokenErrors.length = 0 then
        { type := .token, errors := [] }
      else if groupErrors.length < tokenErrors.length then
        { type := .invalid, errors := groupErrors,
          message := some "Object appears to be a group but failed validation" }
      else
        { type := .invalid, errors := tokenErrors,
          message := some "Object appears to be a token but failed validation" }

/-! ## Built-in value transforms
(`color-transform-factory.ts` and `part_008`)

Host-language primitives (the culori library, `parseFloat`, `Number`,
`String`) are external collaborators and appear as function parameters; a
TS exception is a `none` result. -/

/-- Modelled from the spec: `isColorObject` from the color-converter module
(not under `src/`): a DTCG color value object carries a `colorSpace` and a
`components` array (§3). -/
def isColorObject (v : Value) : Bool :=
  match v.getKey "colorSpace", v.getKey "components" with
  | some (.str _), some (.arr _) => true
  | _, _ => false

/-- A culori color object: a mode tag plus named channel values (channels
hold raw component values; `none` is culori's representation of missing
channels). -/
structure CuloriColor where
  mode : String
  channels : List (String × Option Value)
  alpha : Option Value
deriving Repr

/-- `componentToCulori`: the `"none"` keyword becomes `none` (culori's
representation of missing channels). -/
def componentToCulori (component : Value) : Option Value :=
  if component == .str "none" then none else some component

/-- `dtcgObjectToCulori`: convert a DTCG color object to a culori color
object, mapping all 14 DTCG color spaces; `none` when the value is not a
color object (e.g. an unresolved alias reference). -/
def dtcgObjectToCulori (value : Value) : Option CuloriColor :=
  if !isColorObject value then none
  else
    let comps := match value.getKey "components" with
      | some (.arr elems) => elems
      | _ => []
    let c1 := comps[0]?.bind componentToCulori
    let c2 := comps[1]?.bind componentToCulori
    let c3 := comps[2]?.bind componentToCulori
    let alpha := (value.getKey "alpha").bind componentToCulori
    let colorSpace := match value.getKey "colorSpace" with
      | some (.str s) => lowerStr s
      | _ => ""
    let mk : String → String → String → String → CuloriColor := fun mode n1 n2 n3 =>
      { mode := mode, channels := [(n1, c1), (n2, c2), (n3, c3)], alpha := alpha }
    some (match colorSpace with
      | "srgb" => mk "rgb" "r" "g" "b"
      | "srgb-linear" => mk "lrgb" "r" "g" "b"
      | "hsl" => mk "hsl" "h" "s" "l"
      | "hwb" => mk "hwb" "h" "w" "b"
      | "lab" => mk "lab" "l" "a" "b"
      | "lch" => mk "lch" "l" "c" "h"
      | "oklab" => mk "oklab" "l" "a" "b"
      | "oklch" => mk "oklch" "l" "c" "h"
      | "display-p3" => mk "p3" "r" "g" "b"
      | "a98-rgb" => mk "a98" "r" "g" "b"
      | "prophoto-rgb" => mk "prophoto" "r" "g" "b"
      | "rec2020" => mk "rec2020" "r" "g" "b"
      | "xyz-d65" => mk "xyz65" "x" "y" "z"
      | "xyz-d50" => mk "xyz50" "x" "y" "z"
      | _ => mk "rgb" "r" "g" "b")

/-- `createColorTransform`: a simple color transform with direct string
conversion; `converter` is the caller-supplied conversion function
(`none` models a thrown conversion error, caught by the transform). -/
def createColorTransform (converter : Value → Option String) : Transform :=
  { matcher := some (fun token => token.type == some "color"),
    transform := fun token =>
      if !isColorObject token.value then token
      else
        match converter token.value with
        | some converted => { token with value := .str converted }
        | none => token }

/-- `createModernColorTransform`: convert through culori to a target
color-space `mode` and format as CSS.  `culoriConverter` and `formatCss`
are the external culori collaborators (`none` models a thrown error). -/
def createModernColorTransform
    (culoriConverter : String → CuloriColor → Option CuloriColor)
    (formatCss : CuloriColor → Option String) (mode : String) : Transform :=
  { matcher := some (fun token => token.type == some "color"),
    transform := fun token =>
      match dtcgObjectToCulori token.value with
      | none => token
      | some parsed =>
        match culoriConverter mode parsed with
        | none => token
        | some converted =>
          match formatCss converted with
          | none => token
          | some formatted =>
            if formatted = "" then token
            else { token with value := .str formatted } }

/-- The named-weight table of `fontWeightToNumber`. -/
def weightMap : List (String × ℚ) :=
  [("thin", 100), ("hairline", 100), ("extra-light", 200), ("ultra-light", 200),
   ("light", 300), ("normal", 400), ("regular", 400), ("medium", 500),
   ("semi-bold", 600), ("demi-bold", 600), ("bold", 700), ("extra-bold", 800),
   ("ultra-bold", 800), ("black", 900), ("heavy", 900), ("extra-black", 950),
   ("ultra-black", 950)]

/-- `fontWeightToNumber`: convert named font weights to numeric values. -/
def fontWeightToNumber : Transform :=
  { matcher := some (fun token => token.type == some "fontWeight"),
    transform := fun token =>
      match token.value with
      | .num _ => token
      | .str s =>
        match weightMap.lookup (lowerStr s) with
        | some weight => { token with value := .num weight }
        | none => token
      | _ => token }

/-- JS `Number(x)` coercion followed by the `Number.isFinite` check, as a
host parameter: `some q` for a finite result, `none` otherwise. -/
def JsNumber := Value → Option ℚ

/-- JS `parseFloat`, as a host parameter: `some q` for a finite result,
`none` for NaN/±∞. -/
def JsParseFloat := String → Option ℚ

/-- JS `String(number)` formatting, as a host parameter. -/
def JsNumToString := ℚ → String

/-- The numeric payload written by the unchecked string branches of the
duration transforms: `parseFloat` results are used without a finiteness
check there, so a non-finite parse propagates as `nan`. -/
def parseFloatScaled (jsParseFloat : JsParseFloat) (s : String) (scale : ℚ) : Value :=
  match jsParseFloat s with
  | some q => .num (q * scale)
  | none => .nan

/-- The string coercion used by the duration transforms:
`typeof rawValue === 'string' || typeof rawValue === 'number' ?
String(rawValue) : ''`. -/
def durationValueString (jsNumToString : JsNumToString) : Value → String
  | .str s => s
  | .num q => jsNumToString q
  | .nan => "NaN"
  | _ => ""

/-- `durationToMs`: convert duration tokens to milliseconds, handling both
the DTCG object format and legacy string/number values. -/
def durationToMs (jsNumber : JsNumber) (jsNumToString : JsNumToString)
    (jsParseFloat : JsParseFloat) : Transform :=
  { matcher := some (fun token => token.type == some "duration"),
    transform := fun token =>
      let rawValue := token.value
      if rawValue.hasKey "value" && rawValue.hasKey "unit" then
        match jsNumber ((rawValue.getKey "value").getD .null) with
        | some numeric =>
          if rawValue.getKey "unit" == some (.str "ms") then token
          else if rawValue.getKey "unit" == some (.str "s") then
            { token with
              value := .obj [("value", .num (numeric * 1000)), ("unit", .str "ms")] }
          else token
        | none => token
      else
        let value := durationValueString jsNumToString rawValue
        if strEndsWith value "ms" then
          match jsParseFloat value with
          | some numeric =>
            { token with value := .obj [("value", .num numeric), ("unit", .str "ms")] }
          | none => token
        else if strEndsWith value "s" then
          { token with
            value := .obj [("value", parseFloatScaled jsParseFloat value 1000),
                           ("unit", .str "ms")] }
        else token }

/-- `durationToSeconds`: convert duration tokens to seconds, handling both
the DTCG object format and legacy string/number values. -/
def durationToSeconds (jsNumber : JsNumber) (jsNumToString : JsNumToString)
    (jsParseFloat : JsParseFloat) : Transform :=
  { matcher := some (fun token => token.type == some "duration"),
    transform := fun token =>
      let rawValue := token.value
      if rawValue.hasKey "value" && rawValue.hasKey "unit" then
        match jsNumber ((rawValue.getKey "value").getD .null) with
        | some numeric =>
          if rawValue.getKey "unit" == some (.str "s") then token
          else if rawValue.getKey "unit" == some (.str "ms") then
            { token with
              value := .obj [("value", .num (numeric / 1000)), ("unit", .str "s")] }
          else token
        | none => token
      else
        let value := durationValueString jsNumToString rawValue
        if strEndsWith value "s" && !strEndsWith value "ms" then
          match jsParseFloat value with
          | some numeric =>
            { token with value := .obj [("value", .num numeric), ("unit", .str "s")] }
          | none => token
        else if strEndsWith value "ms" then
          { token with
            value := .obj [("value", parseFloatScaled jsParseFloat value (1 / 1000)),
                           ("unit", .str "s")] }
        else token }

/-- A function on tokens leaves the frame (everything except `$value`)
untouched: `name`, `path`, `$type`, `originalValue`, `$description` and the
provenance fields are preserved. -/
def preservesFrame (f : ResolvedToken → ResolvedToken) : Prop :=
  ∀ t : ResolvedToken,
    (f t).name = t.name ∧ (f t).path = t.path ∧ (f t).type = t.type ∧
    (f t).originalValue = t.originalValue ∧ (f t).description = t.description ∧
    (f t).sourceSet = t.sourceSet ∧ (f t).sourceModifier = t.sourceModifier

/-! ## Resolver document and bundler data model
(`resolution.types`, `renderers/bundlers/types` = `part_009`) -/

/-- Modifier inputs: mapping from modifier name to context name. -/
abbrev ModifierInputs := List (String × String)

/-- A set definition in a resolver document (only the fields the bundlers
read). -/
structure SetDef where
  description : Option String := none

/-- A modifier definition in a resolver document: default context and the
context map (context name → token-document sources). -/
structure ModifierDef where
  default : String
  contexts : List (String × List Value)
  description : Option String := none

/-- An entry of `resolutionOrder`: an object whose `$ref` may be a string. -/
structure RefItem where
  ref : Option String

/-- Resolver document (the fields the bundlers read). -/
structure ResolverDocument where
  version : Option String := none
  sets : Option (List (String × SetDef)) := none
  modifiers : Option (List (String × ModifierDef)) := none
  resolutionOrder : List RefItem

/-- `BundleDataItem` (`part_009`): one permutation's resolved tokens, its
modifier inputs, and whether it is the base permutation. -/
structure BundleDataItem where
  tokens : ResolvedTokens
  modifierInputs : ModifierInputs
  isBase : Bool

/-- Errors the bundlers raise (`BasePermutationError`,
`ConfigurationError`). -/
inductive BundleError where
  | basePermutation (msg : String) : BundleError
  | configuration (msg : String) : BundleError
deriving Repr, DecidableEq

/-! ## Bundler utilities (`renderers/bundlers/utils`)

The `utils` module itself is not under `src/`; its functions are modelled
from the spec (§3, §4.7, §6) and pinned to the behavior its unit tests
under `tests/unit/renderers/bundler-utils.test.ts` document. -/

/-- Modelled from the spec: `normalizeModifierInputs` — modifier and
context names are compared case-insensitively throughout the pipeline;
permutation labels use the normalized (lower-case) strings (§3, §4.3). -/
def normalizeModifierInputs (modifierInputs : ModifierInputs) : ModifierInputs :=
  modifierInputs.map (fun kv => (lowerStr kv.1, lowerStr kv.2))

/-- Modelled from the spec: `countModifierDifferences` — the number of
modifiers whose context in the permutation deviates from the base
permutation's (case-insensitively; §4.7 cascade bundling). -/
def countModifierDifferences (modifierInputs baseInputs : ModifierInputs) : Nat :=
  let ni := normalizeModifierInputs modifierInputs
  let nb := normalizeModifierInputs baseInputs
  nb.countP (fun kv => decide (ni.lookup kv.1 ≠ some kv.2))

/-- Modelled from the spec: `getExpectedSource` — for a single-dimension
deviation, the deviating `modifier-context` pair as the normalized
`_sourceModifier` string (the S2 scenario stamps `theme-dark`). -/
def getExpectedSource (modifierInputs baseInputs : ModifierInputs) : String :=
  let ni := normalizeModifierInputs modifierInputs
  let nb := normalizeModifierInputs baseInputs
  match nb.find? (fun kv => decide (ni.lookup kv.1 ≠ some kv.2)) with
  | some kv => kv.1 ++ "-" ++ ((ni.lookup kv.1).getD "")
  | none => ""

/-- Modelled from the spec: `parseModifierSource` — split a
`modifier-context` source string at its first dash. -/
def parseModifierSource (source : String) : String × String :=
  match splitOnDash source with
  | [] => ("", "")
  | m :: rest => (m, joinWith "-" rest)

/-- Modelled from the spec: `filterTokensBySource` — keep only the tokens
whose `_sourceModifier` matches the expected `modifier-context` source
(case-insensitively). -/
def filterTokensBySource (tokens : ResolvedTokens) (expectedSource : String) :
    ResolvedTokens :=
  List.filter
    (fun e => match e.2.sourceModifier with
      | some s => lowerStr s == expectedSource
      | none => false)
    tokens

/-- Modelled from the spec: `stripInternalMetadata` — the provenance fields
`_sourceSet`/`_sourceModifier` are stripped before a renderer receives
tokens (§9 design notes). -/
def stripInternalMetadata (tokens : ResolvedTokens) : ResolvedTokens :=
  tokens.map (fun e => (e.1, { e.2 with sourceSet := none, sourceModifier := none }))

/-- Bundle metadata (`_meta`): dimensions in dimension order and the default
context per dimension. -/
structure BundleMetadata where
  dimensions : List String
  defaults : List (String × String)

/-- Modelled from the spec: `buildMetadata` — `meta` carries `dimensions`
(normalized modifier names in document-declaration order, §4.1) and
`defaults` (each dimension's normalized default context). -/
def buildMetadata (resolver : ResolverDocument) : BundleMetadata :=
  let modifiers := resolver.modifiers.getD []
  { dimensions := modifiers.map (fun kv => lowerStr kv.1),
    defaults := modifiers.map (fun kv => (lowerStr kv.1, lowerStr kv.2.default)) }

/-- Modelled from the spec: `buildStablePermutationKey` — the JSON bundle
key: `dimension=value` pairs in dimension order joined by `|` (pinned by
the bundler-utils unit tests). -/
def buildStablePermutationKey (inputs : ModifierInputs) (dimensions : List String) : String :=
  joinWith "|"
    (dimensions.map (fun d => d ++ "=" ++ ((inputs.lookup d).getD "")))

/-- A CSS selector / media-query option: a literal string or a function of
`(modifier, context, isBase, allInputs)` (§4.7). -/
inductive SelectorSpec where
  | str (s : String) : SelectorSpec
  | fn (f : String → String → Bool → ModifierInputs → String) : SelectorSpec

/-- Modelled from the spec: `resolveSelector` — a string selector is used
as-is, a function selector is applied, and the default selector is `:root`
for the base permutation and `[data-<modifier>="<context>"]` otherwise
(§4.7, pinned by the bundler-utils unit tests). -/
def resolveSelector (selector : Option SelectorSpec) (modifier context : String)
    (isBase : Bool) (allInputs : ModifierInputs) : String :=
  match selector with
  | some (.str s) => s
  | some (.fn f) => f modifier context isBase allInputs
  | none =>
    if isBase then ":root"
    else "[data-" ++ modifier ++ "=\"" ++ context ++ "\"]"

/-- Modelled from the spec: `resolveMediaQuery` — as `resolveSelector`, but
the default is the empty string (pinned by the bundler-utils unit tests). -/
def resolveMediaQuery (mediaQuery : Option SelectorSpec) (modifier context : String)
    (isBase : Bool) (allInputs : ModifierInputs) : String :=
  match mediaQuery with
  | some (.str s) => s
  | some (.fn f) => f modifier context isBase allInputs
  | none => ""

/-! ## CSS bundler (`renderers/bundlers/css.ts`) -/

/-- CSS renderer options read by the bundler. -/
structure CssRendererOptions where
  selector : Option SelectorSpec := none
  mediaQuery : Option SelectorSpec := none
  minify : Option Bool := none

/-- The resolved options handed to the CSS formatter
(`ResolvedCssOptions`). -/
structure ResolvedCssOptions where
  selector : String
  mediaQuery : String
  minify : Option Bool := none
  referenceTokens : ResolvedTokens := []

/-- `getSourceSet`: the `_sourceSet` provenance string of a token, when
present. -/
def getSourceSet (token : ResolvedToken) : Option String :=
  token.sourceSet

/-- `getSourceModifier`: the `_sourceModifier` provenance string of a
token, when present. -/
def getSourceModifier (token : ResolvedToken) : Option String :=
  token.sourceModifier

/-- Whether any token of the permutation carries `_sourceModifier`
metadata (the `hasSourceMetadata` probe in `formatModifierPermutation`). -/
def hasSourceMetadata (tokens : ResolvedTokens) : Bool :=
  tokens.any (fun e => (getSourceModifier e.2).isSome)

/-- The token set a non-base cascade block includes
(`formatModifierPermutation`, the filter with its no-metadata fallback):
tokens matching the deviating source, or the full token set when nothing
matched and no token carries source metadata at all. -/
def cssTokensToInclude (item baseItem : BundleDataItem) : ResolvedTokens :=
  let expectedSource := getExpectedSource item.modifierInputs baseItem.modifierInputs
  let filtered := filterTokensBySource item.tokens expectedSource
  if filtered.length = 0 && !hasSourceMetadata item.tokens then item.tokens
  else filtered

/-- `formatModifierPermutation`: render one non-base permutation as a
cascade override block; `none` when the permutation deviates from base in
more than one modifier or contributes no tokens. -/
def formatModifierPermutation (item baseItem : BundleDataItem)
    (options : Option CssRendererOptions)
    (formatTokens : ResolvedTokens → ResolvedCssOptions → String) : Option String :=
  let differenceCount := countModifierDifferences item.modifierInputs baseItem.modifierInputs
  if differenceCount > 1 then none
  else
    let expectedSource := getExpectedSource item.modifierInputs baseItem.modifierInputs
    let tokensToInclude := cssTokensToInclude item baseItem
    if tokensToInclude.length = 0 then none
    else
      let mc := parseModifierSource expectedSource
      let cleanTokens := stripInternalMetadata tokensToInclude
      let referenceTokens := stripInternalMetadata item.tokens
      let selector :=
        resolveSelector (options.bind (·.selector)) mc.1 mc.2 false item.modifierInputs
      let mediaQuery :=
        resolveMediaQuery (options.bind (·.mediaQuery)) mc.1 mc.2 false item.modifierInputs
      let css := formatTokens cleanTokens
        { selector := selector, mediaQuery := mediaQuery,
          minify := options.bind (·.minify), referenceTokens := referenceTokens }
      some ("/* Modifier: " ++ mc.1 ++ "=" ++ mc.2 ++ " */\n" ++ css)

/-- One block emitted for the base permutation (`DefaultLayerBlock`). -/
structure DefaultLayerBlock where
  key : String
  description : Option String := none
  tokens : ResolvedTokens

/-- The `addBlock` helper of `buildDefaultLayerBlocks`: skip empty blocks,
otherwise record the block and mark its token names as included. -/
def addBlock (st : List String × List DefaultLayerBlock) (key : String)
    (blockTokens : ResolvedTokens) (description : Option String) :
    List String × List DefaultLayerBlock :=
  if blockTokens.length = 0 then st
  else (st.1 ++ blockTokens.map (·.1),
        st.2 ++ [{ key := key, description := description, tokens := blockTokens }])

/-- `buildDefaultLayerBlocks`: group the base permutation's tokens into one
block per `resolutionOrder` entry by provenance, with an `Unattributed`
remainder block. -/
def buildDefaultLayerBlocks (tokens : ResolvedTokens)
    (baseModifierInputs : ModifierInputs) (resolver : ResolverDocument) :
    List DefaultLayerBlock :=
  let baseInputs := normalizeModifierInputs baseModifierInputs
  let step := fun (st : List String × List DefaultLayerBlock) (item : RefItem) =>
    match item.ref with
    | none => st
    | some ref =>
      if strStartsWith ref "#/sets/" then
        let setName := ref.drop "#/sets/".length
        let setDescription := ((resolver.sets.getD []).lookup setName).bind (·.description)
        let setTokens := tokens.filter
          (fun e => !st.1.contains e.1 && getSourceSet e.2 == some setName)
        addBlock st ("Set: " ++ setName) setTokens setDescription
      else if strStartsWith ref "#/modifiers/" then
        let modifierName := ref.drop "#/modifiers/".length
        match (resolver.modifiers.getD []).lookup modifierName with
        | none => st
        | some modifier =>
          let selectedContext := (baseInputs.lookup (lowerStr modifierName)).getD ""
          if selectedContext = "" then st
          else
            let expectedSource := lowerStr (modifierName ++ "-" ++ selectedContext)
            let modifierTokens := tokens.filter
              (fun e => !st.1.contains e.1 &&
                lowerStr ((getSourceModifier e.2).getD "") == expectedSource)
            addBlock st
              ("Modifier: " ++ modifierName ++ "=" ++ selectedContext ++ " (default)")
              modifierTokens modifier.description
      else st
  let st := resolver.resolutionOrder.foldl step ([], [])
  let remainder := tokens.filter (fun e => !st.1.contains e.1)
  (addBlock st "Unattributed" remainder none).2

/-- `formatBasePermutation`: render the base permutation as one block per
default layer under the base selector. -/
def formatBasePermutation (item : BundleDataItem) (resolver : ResolverDocument)
    (options : Option CssRendererOptions)
    (formatTokens : ResolvedTokens → ResolvedCssOptions → String) : List String :=
  let firstModifierName := match resolver.modifiers with
    | some mods => ((mods.map (·.1)).head?).getD ""
    | none => ""
  let modifier := firstModifierName
  let context := (item.modifierInputs.lookup modifier).getD ""
  let selector :=
    resolveSelector (options.bind (·.selector)) modifier context true item.modifierInputs
  let mediaQuery :=
    resolveMediaQuery (options.bind (·.mediaQuery)) modifier context true item.modifierInputs
  let referenceTokens := stripInternalMetadata item.tokens
  let defaultBlocks := buildDefaultLayerBlocks item.tokens item.modifierInputs resolver
  defaultBlocks.map (fun block =>
    let cleanTokens := stripInternalMetadata block.tokens
    let css := formatTokens cleanTokens
      { selector := selector, mediaQuery := mediaQuery,
        minify := options.bind (·.minify), referenceTokens := referenceTokens }
    let header := match block.description with
      | some d => "/* " ++ block.key ++ " */\n/* " ++ d ++ " */"
      | none => "/* " ++ block.key ++ " */"
    header ++ "\n" ++ css)

/-- Insert a string into a sorted list of strings (ascending). -/
def insertSorted (x : String) : List String → List String
  | [] => [x]
  | y :: ys => if x ≤ y then x :: y :: ys else y :: insertSorted x ys

/-- Sort a list of strings ascending (JS `Array.prototype.sort`). -/
def sortStrings (l : List String) : List String :=
  l.foldr insertSorted []

/-- `stableInputsKey`: a canonical key for a permutation's inputs — the
normalized entries sorted by modifier name, `k=v` joined by `|`. -/
def stableInputsKey (modifierInputs : ModifierInputs) : String :=
  let normalized := normalizeModifierInputs modifierInputs
  joinWith "|"
    ((sortStrings (normalized.map (·.1))).map
      (fun k => k ++ "=" ++ ((normalized.lookup k).getD "")))

/-- `getOrderedModifierNames`: modifier names in `resolutionOrder`
appearance order, followed by any declared modifiers not mentioned there. -/
def getOrderedModifierNames (resolver : ResolverDocument) : List String :=
  let modifiers := resolver.modifiers.getD []
  let fromOrder := resolver.resolutionOrder.foldl
    (fun (acc : List String) item =>
      match item.ref with
      | some ref =>
        if strStartsWith ref "#/modifiers/" then
          let name := ref.drop "#/modifiers/".length
          if acc.contains name then acc
          else if (modifiers.lookup name).isSome then acc ++ [name]
          else acc
        else acc
      | none => acc)
    []
  modifiers.foldl
    (fun acc kv => if acc.contains kv.1 then acc else acc ++ [kv.1]) fromOrder

/-- `findSingleDiff` inside `orderBundleData`: the bundle item that deviates
from base exactly in `modifierName = context` with all other modifiers at
their base values. -/
def findSingleDiff (bundleData : List BundleDataItem) (baseInputs : ModifierInputs)
    (modifierName context : String) : Option BundleDataItem :=
  let normalizedModifier := lowerStr modifierName
  let normalizedContext := lowerStr context
  bundleData.find? (fun item =>
    if item.isBase then false
    else
      let inputs := normalizeModifierInputs item.modifierInputs
      if !(inputs.lookup normalizedModifier == some normalizedContext) then false
      else baseInputs.all
        (fun kv => kv.1 == normalizedModifier || inputs.lookup kv.1 == some kv.2))

/-- `orderBundleData`: base first, then each modifier's non-default
contexts in declaration order, deduplicated by `stableInputsKey`; falls
back to the raw list when the resolver declares no usable modifiers. -/
def orderBundleData (bundleData : List BundleDataItem) (resolver : ResolverDocument)
    (baseItem : BundleDataItem) : List BundleDataItem :=
  match resolver.modifiers with
  | none => bundleData
  | some modifiers =>
    let baseInputs := normalizeModifierInputs baseItem.modifierInputs
    let orderedModifierNames := getOrderedModifierNames resolver
    if orderedModifierNames.length = 0 then bundleData
    else
      match orderedModifierNames.head? with
      | none => bundleData
      | some firstModifier =>
        if (modifiers.lookup firstModifier).isNone then bundleData
        else
          let push := fun (st : List String × List BundleDataItem)
              (found : Option BundleDataItem) =>
            match found with
            | none => st
            | some item =>
              let key := stableInputsKey item.modifierInputs
              if st.1.contains key then st else (st.1 ++ [key], st.2 ++ [item])
          let st0 := push ([], []) (some baseItem)
          let st := orderedModifierNames.foldl
            (fun (st : List String × List BundleDataItem) modifierName =>
              match modifiers.lookup modifierName with
              | none => st
              | some modifierDef =>
                let contexts := modifierDef.contexts.map (·.1)
                let defaultValue := (baseInputs.lookup (lowerStr modifierName)).getD ""
                contexts.foldl
                  (fun (st : List String × List BundleDataItem) ctx =>
                    if defaultValue = lowerStr ctx then st
                    else push st (findSingleDiff bundleData baseInputs modifierName ctx))
                  st)
            st0
          if st.2.length > 0 then st.2 else bundleData

/-- `bundleAsCss`: the cascade CSS bundle — base permutation blocks first,
then one override block per usable single-dimension deviation; raises
`BasePermutationError` when no bundle item is flagged `isBase` and
`ConfigurationError` when no formatter is provided. -/
def bundleAsCss (bundleData : List BundleDataItem) (resolver : ResolverDocument)
    (options : Option CssRendererOptions)
    (formatTokens : Option (ResolvedTokens → ResolvedCssOptions → String)) :
    Except BundleError String :=
  match bundleData.find? (·.isBase) with
  | none => .error (.basePermutation "Base permutation not found in bundle data")
  | some baseItem =>
    match formatTokens with
    | none => .error (.configuration "CSS formatter was not provided")
    | some ft =>
      let orderedBundleData := orderBundleData bundleData resolver baseItem
      let cssBlocks := orderedBundleData.foldl
        (fun acc item =>
          if item.isBase then acc ++ formatBasePermutation item resolver options ft
          else
            match formatModifierPermutation item baseItem options ft with
            | some block => acc ++ [block]
            | none => acc)
        []
      .ok (joinWith "\n\n" cssBlocks)

/-! ## JS / JSON bundlers (`renderers/bundlers/js.ts`) -/

/-- `toCamelKey`: camel-case a dash-separated key (empty segments are
dropped; segments after the first are capitalized). -/
def capitalizeFirst (w : String) : String :=
  match w.data with
  | [] => ""
  | c :: rest => String.mk (upperChar c :: rest)

/-- `toCamelKey` from `renderers/bundlers/js.ts`. -/
def toCamelKey (key : String) : String :=
  if key = "" then ""
  else
    let parts := (splitOnDash key).filter (fun part => part ≠ "")
    String.join (parts.enum.map (fun wi => if wi.1 = 0 then wi.2 else capitalizeFirst wi.2))

/-- `buildStableDashKey`: the permutation's dimension values in dimension
order joined by `-`, backed by the metadata defaults. -/
def buildStableDashKey (modifierInputs : ModifierInputs) (dimensions : List String)
    (defaults : List (String × String)) : String :=
  let inputs := normalizeModifierInputs modifierInputs
  joinWith "-"
    (dimensions.map (fun dimension =>
      (inputs.lookup dimension).getD ((defaults.lookup dimension).getD "")))

/-- JS `\w` word characters. -/
def isWordChar (c : Char) : Bool :=
  c.isAlphanum || c = Char.ofNat 95

/-- Match the regex `const\s+\w+\s*=\s*\x7b` at the head of the character
list; returns the length of the match. -/
def matchConstAt (cs : List Char) : Option Nat :=
  match cs with
  | 'c' :: 'o' :: 'n' :: 's' :: 't' :: rest =>
    let ws1 := rest.takeWhile Char.isWhitespace
    if ws1.length = 0 then none
    else
      let r1 := rest.drop ws1.length
      let w := r1.takeWhile isWordChar
      if w.length = 0 then none
      else
        let r2 := r1.drop w.length
        let ws2 := r2.takeWhile Char.isWhitespace
        let r3 := r2.drop ws2.length
        match r3 with
        | '=' :: r4 =>
          let ws3 := r4.takeWhile Char.isWhitespace
          let r5 := r4.drop ws3.length
          match r5 with
          | c :: _ =>
            if c = braceL then
              some (5 + ws1.length + w.length + ws2.length + 1 + ws3.length + 1)
            else none
          | [] => none
        | _ => none
  | _ => none

/-- Find the first match of the object-assignment pattern; returns the
index of its opening brace (`assignmentMatch.index + length - 1`). -/
def findConstAssign : List Char → Nat → Option Nat
  | [], _ => none
  | c :: rest, i =>
    match matchConstAt (c :: rest) with
    | some len => some (i + len - 1)
    | none => findConstAssign rest (i + 1)

/-- The balanced-brace scan of `extractObjectFromJsModule`: starting at an
opening brace, count braces outside string literals (tracking quote state
and escape sequences) and return the number of characters up to and
including the matching closing brace. -/
def extractBraceLoop : List Char → Nat → Bool → Char → Bool → Nat → Option Nat
  | [], _, _, _, _, _ => none
  | ch :: rest, braceCount, inString, stringChar, escaped, consumed =>
    let isQuote := ch = quoteDouble || ch = quoteSingle || ch = quoteBacktick
    let next :=
      if !escaped && isQuote then
        if !inString then (true, ch)
        else if ch = stringChar then (false, nullChar)
        else (inString, stringChar)
      else (inString, stringChar)
    let escaped2 := !escaped && ch = backslashChar
    if !next.1 then
      if ch = braceL then
        extractBraceLoop rest (braceCount + 1) next.1 next.2 escaped2 (consumed + 1)
      else if ch = braceR then
        if braceCount = 1 then some (consumed + 1)
        else extractBraceLoop rest (braceCount - 1) next.1 next.2 escaped2 (consumed + 1)
      else extractBraceLoop rest braceCount next.1 next.2 escaped2 (consumed + 1)
    else extractBraceLoop rest braceCount next.1 next.2 escaped2 (consumed + 1)

/-- `extractObjectFromJsModule`: extract the object literal assigned by
`const name = \x7b…\x7d` using balanced-brace matching; `"\x7b\x7d"` as the
fallback. -/
def extractObjectFromJsModule (formattedJs : String) : String :=
  match findConstAssign formattedJs.data 0 with
  | none => String.mk [braceL, braceR]
  | some startIndex =>
    let tail := formattedJs.data.drop startIndex
    match extractBraceLoop tail 0 false nullChar false 0 with
    | some len => String.mk (tail.take len)
    | none => String.mk [braceL, braceR]

/-- JSON string escaping for one character (the escapes relevant to the
strings this pipeline emits). -/
def jsonEscapeChar (c : Char) : List Char :=
  if c = quoteDouble then [backslashChar, quoteDouble]
  else if c = backslashChar then [backslashChar, backslashChar]
  else if c = newlineChar then [backslashChar, 'n']
  else if c = Char.ofNat 13 then [backslashChar, 'r']
  else if c = Char.ofNat 9 then [backslashChar, 't']
  else [c]

/-- `JSON.stringify` of a string value. -/
def jsonQuote (s : String) : String :=
  String.mk (quoteDouble :: s.data.foldr (fun c acc => jsonEscapeChar c ++ acc) [quoteDouble])

/-- Indentation padding of `n` spaces. -/
def pad (n : Nat) : String :=
  String.mk (List.replicate n ' ')

/-- JSON number formatting: integers print exactly; host float formatting
of non-integral rationals is out of the pipeline's scope and is modelled
as numerator/denominator text (no claim inspects it). -/
def ratToJsonString (q : ℚ) : String :=
  if q.den = 1 then toString q.num
  else toString q.num ++ "/" ++ toString q.den

mutual

/-- `JSON.stringify(v, null, 2)` at indentation level `ind`. -/
def stringifyValue (ind : Nat) : Value → String
  | .null => "null"
  | .nan => "null"
  | .bool b => if b then "true" else "false"
  | .num q => ratToJsonString q
  | .str s => jsonQuote s
  | .arr [] => "[]"
  | .arr (e :: es) =>
    "[\n" ++ joinWith ",\n" (stringifyItems (ind + 2) (e :: es)) ++ "\n" ++ pad ind ++ "]"
  | .obj [] => String.mk [braceL, braceR]
  | .obj (f :: fs) =>
    String.mk [braceL] ++ "\n" ++ joinWith ",\n" (stringifyFields (ind + 2) (f :: fs)) ++
      "\n" ++ pad ind ++ String.mk [braceR]

def stringifyItems (ind : Nat) : List Value → List String
  | [] => []
  | e :: es => (pad ind ++ stringifyValue ind e) :: stringifyItems ind es

def stringifyFields (ind : Nat) : List (String × Value) → List String
  | [] => []
  | (k, v) :: fs =>
    (pad ind ++ jsonQuote k ++ ": " ++ stringifyValue ind v) :: stringifyFields ind fs

end

/-- The `_meta` metadata as a JSON value (`\x7b dimensions, defaults \x7d`). -/
def metadataValue (m : BundleMetadata) : Value :=
  .obj [("dimensions", .arr (m.dimensions.map .str)),
        ("defaults", .obj (m.defaults.map (fun kv => (kv.1, .str kv.2))))]

/-- JS module renderer options read by the bundler. -/
structure JsModuleRendererOptions where
  generateHelper : Option Bool := none

/-- One entry of the `jsBlocks` array in `bundleAsJsModule`: the dash-key
comment, then the camel-cased key mapped to the extracted token object. -/
def jsBlockFor (metadata : BundleMetadata) (ft : ResolvedTokens → String)
    (item : BundleDataItem) : String :=
  let cleanTokens := stripInternalMetadata item.tokens
  let key := buildStableDashKey item.modifierInputs metadata.dimensions metadata.defaults
  let camelKey := toCamelKey key
  let formattedJs := ft cleanTokens
  let tokenObject := extractObjectFromJsModule formattedJs
  let comment := "  // " ++ key
  let indentedObject := replaceChar newlineChar "\n  " tokenObject
  comment ++ "\n  " ++ jsonQuote camelKey ++ ": " ++ indentedObject

/-- The `jsBlocks` loop of `bundleAsJsModule` (the missing-formatter check
sits inside the loop, as in the source). -/
def jsBlocksOf (bundleData : List BundleDataItem) (metadata : BundleMetadata)
    (formatTokens : Option (ResolvedTokens → String)) :
    Except BundleError (List String) :=
  bundleData.foldl
    (fun acc item => do
      let blocks ← acc
      match formatTokens with
      | none => Except.error (.configuration "JS formatter was not provided")
      | some ft => Except.ok (blocks ++ [jsBlockFor metadata ft item]))
    (Except.ok [])

/-- The generated `getTokens` helper function text. -/
def jsHelperText (metadata : BundleMetadata) : String :=
  let dimensionOrder := joinWith ", " (metadata.dimensions.map jsonQuote)
  "/**\n" ++
  " * Get tokens for a specific modifier combination\n" ++
  " * @param \x7bObject\x7d modifiers - Modifier values (e.g., \x7b theme: \x27dark\x27, brand: \x27partner-a\x27 \x7d)\n" ++
  " * @returns \x7bObject\x7d Resolved tokens for the combination\n" ++
  " */\n" ++
  "export function getTokens(modifiers = \x7b\x7d) \x7b\n" ++
  "  const key = [" ++ dimensionOrder ++ "]\n" ++
  "    .map(dim => modifiers[dim] || tokenBundle._meta.defaults[dim])\n" ++
  "    .join(\x27-\x27)\n" ++
  "  const camelKey = key\n" ++
  "    .split(\x27-\x27)\n" ++
  "    .filter(Boolean)\n" ++
  "    .map((w, i) => (i === 0 ? w : w.charAt(0).toUpperCase() + w.slice(1)))\n" ++
  "    .join(\x27\x27)\n" ++
  "  return tokenBundle.tokens[camelKey]\n" ++
  "\x7d\n\n"

/-- `bundleAsJsModule`: the JS module bundle — `_meta`, one keyed
sub-object per permutation, an optional lookup helper, and the default
export. -/
def bundleAsJsModule (bundleData : List BundleDataItem) (resolver : ResolverDocument)
    (options : Option JsModuleRendererOptions)
    (formatTokens : Option (ResolvedTokens → String)) : Except BundleError String :=
  let metadata := buildMetadata resolver
  match jsBlocksOf bundleData metadata formatTokens with
  | .error e => .error e
  | .ok jsBlocks =>
    let generateHelper := (options.bind (·.generateHelper)).getD false
    let metaStr := replaceChar newlineChar "\n  " (stringifyValue 0 (metadataValue metadata))
    let body := "const tokenBundle = " ++ String.mk [braceL] ++ "\n" ++
      ("  _meta: " ++ metaStr ++ ",\n") ++
      ("  tokens: " ++ String.mk [braceL] ++ "\n" ++ joinWith ",\n" jsBlocks ++
        "\n  " ++ String.mk [braceR] ++ "\n") ++
      (String.mk [braceR] ++ "\n\n")
    let withHelper := body ++ (if generateHelper then jsHelperText metadata else "")
    .ok (withHelper ++ "export default tokenBundle\n")

/-- JS object property assignment `obj[k] = v`: overwrite in place when the
key exists, append otherwise. -/
def objAssign (fields : List (String × Value)) (k : String) (v : Value) :
    List (String × Value) :=
  if fields.any (fun kv => kv.1 == k) then
    fields.map (fun kv => if kv.1 == k then (kv.1, v) else kv)
  else fields ++ [(k, v)]

/-- The `tokens` object built by `bundleAsJson`: one entry per permutation
under its stable key (`formatTokensParsed` stands for the composition of
the JSON formatter with `JSON.parse`). -/
def jsonBundleTokens (bundleData : List BundleDataItem) (metadata : BundleMetadata)
    (formatTokensParsed : ResolvedTokens → Value) : List (String × Value) :=
  bundleData.foldl
    (fun acc item =>
      let cleanTokens := stripInternalMetadata item.tokens
      let normalizedInputs := normalizeModifierInputs item.modifierInputs
      let key := buildStablePermutationKey normalizedInputs metadata.dimensions
      objAssign acc key (formatTokensParsed cleanTokens))
    []

/-- `bundleAsJson`: the JSON bundle — `_meta` metadata plus the keyed
`tokens` object, pretty-printed with two-space indentation. -/
def bundleAsJson (bundleData : List BundleDataItem) (resolver : ResolverDocument)
    (formatTokensParsed : Option (ResolvedTokens → Value)) : Except BundleError String :=
  match formatTokensParsed with
  | none => .error (.configuration "JSON formatter was not provided")
  | some ft =>
    let metadata := buildMetadata resolver
    let tokens := jsonBundleTokens bundleData metadata ft
    .ok (stringifyValue 0
      (.obj [("_meta", metadataValue metadata), ("tokens", .obj tokens)]))

/-- A string occurs as a contiguous substring of another. -/
def strContainsProp (hay needle : String) : Prop :=
  ∃ p q, hay = p ++ needle ++ q

/-- Concrete token for the base permutation of the cascade
counterexample. -/
def cexBaseToken : ResolvedToken :=
  { name := "color.text", path := ["color", "text"], type := some "color",
    value := .str "#000000", originalValue := .str "#000000" }

/-- Concrete base bundle item (theme = light). -/
def cexBaseItem : BundleDataItem :=
  { tokens := [("color.text", cexBaseToken)],
    modifierInputs := [("theme", "light")], isBase := true }

/-- Concrete dark-theme token carrying no `_sourceModifier` metadata. -/
def cexDarkToken : ResolvedToken :=
  { name := "color.text", path := ["color", "text"], type := some "color",
    value := .str "#ffffff", originalValue := .str "#ffffff" }

/-- Concrete dark-theme bundle item (single-dimension deviation), none of
whose tokens carries source metadata. -/
def cexDarkItem : BundleDataItem :=
  { tokens := [("color.text", cexDarkToken)],
    modifierInputs := [("theme", "dark")], isBase := false }

/-- A CSS formatter that renders the names of the tokens it receives,
making the emitted token set observable in the output block. -/
def nameListingFormatter : ResolvedTokens → ResolvedCssOptions → String :=
  fun tokens _ => joinWith "," (tokens.map (·.1))

/-- Concrete two-modifier resolver (theme × platform) for the keyed-bundle
counterexample. -/
def cexKeyResolver : ResolverDocument :=
  { modifiers := some
      [("theme", { default := "light", contexts := [("light", []), ("dark", [])] }),
       ("platform", { default := "desktop", contexts := [("desktop", []), ("mobile", [])] })],
    resolutionOrder := [{ ref := some "#/modifiers/theme" },
                        { ref := some "#/modifiers/platform" }] }

/-- Concrete base permutation item for the keyed-bundle counterexample. -/
def cexKeyBaseItem : BundleDataItem :=
  { tokens := [], modifierInputs := [("theme", "light"), ("platform", "desktop")],
    isBase := true }

/-- Concrete dark/mobile permutation item for the keyed-bundle
counterexample. -/
def cexKeyDarkItem : BundleDataItem :=
  { tokens := [], modifierInputs := [("theme", "dark"), ("platform", "mobile")],
    isBase := false }

/-- A concrete JS formatter emitting an empty module object. -/
def cexJsFormatter : ResolvedTokens → String :=
  fun _ => "const tokens = " ++ String.mk [braceL, braceR] ++ "\nexport default tokens\n"

/-- The JS bundle emitted for the keyed-bundle counterexample. -/
def cexJsOutput : String :=
  match bundleAsJsModule [cexKeyBaseItem, cexKeyDarkItem] cexKeyResolver none
      (some cexJsFormatter) with
  | .ok s => s
  | .error _ => ""

/-- The JSON bundle emitted for the keyed-bundle counterexample. -/
def cexJsonOutput : String :=
  match bundleAsJson [cexKeyBaseItem, cexKeyDarkItem] cexKeyResolver
      (some (fun _ => Value.obj [])) with
  | .ok s => s
  | .error _ => ""

/-! ## Theorems for claims C9 and C10 -/

/-- C9: The configured default for the alias-resolution depth bound is 10:
the constant `DEFAULT_MAX_ALIAS_DEPTH` equals 10; once the depth budget is
exhausted, expanding any further alias is a `CircularReferenceError`;
and at the boundary, a chain requiring exactly 10 expansions succeeds while a
chain requiring 11 fails with `CircularReferenceError`. -/
theorem default_max_alias_depth_spec :
    DEFAULT_MAX_ALIAS_DEPTH = 10 ∧
    (∀ (table : List (String × Value)) (trail : List String) (s : String),
      isStandaloneAlias s = true →
      resolveAliasValue table 0 trail (Value.str s) =
        Except.error (AliasError.circularReference (trail ++ [aliasPath s]))) ∧
    resolveTokenName (chainTable 11) "a0" = Except.ok (Value.str "end") ∧
    (∃ tr, resolveTokenName (chainTable 12) "a0" =
      Except.error (AliasError.circularReference tr)) := by
  refine ⟨rfl, ?_, by rfl, ?_⟩
  · intro table trail s hs
    simp [resolveAliasValue, hs]
  · exact ⟨["a0", "a1", "a2", "a3", "a4", "a5", "a6", "a7", "a8", "a9", "a10", "a11"], by rfl⟩

/-- Witness for `default_max_alias_depth_spec`: the universally quantified
part applied at an empty table and the alias string `"\x7ba\x7d"`. -/
theorem default_max_alias_depth_spec_witness :
    resolveAliasValue [] 0 [] (Value.str (String.mk [braceL, Char.ofNat 97, braceR])) =
      Except.error (AliasError.circularReference
        ([] ++ [aliasPath (String.mk [braceL, Char.ofNat 97, braceR])])) :=
  default_max_alias_depth_spec.2.1 [] [] _ (by decide)

/-- C1: if the reference-resolution stage throws, the pipeline is not
aborted: the error and the skip warning are reported through the validation
handler, the preprocessed document is carried forward unchanged, and the
stage is marked `skipped`; every successful resolution is marked
`resolved` (with no diagnostic). -/
theorem resolveReferences_failure_policy
    (resolveDeepTokenDocument : Value → Except String Value)
    (stage : PreprocessedStage) :
    (∀ e, resolveDeepTokenDocument stage.preprocessedTokens = Except.error e →
      (resolveReferences resolveDeepTokenDocument stage).1.referenceResolvedTokens =
          stage.preprocessedTokens ∧
      (resolveReferences resolveDeepTokenDocument stage).1.referenceResolution =
          RefResolution.skipped ∧
      (resolveReferences resolveDeepTokenDocument stage).2 =
          [e, "Reference resolution skipped: " ++ e]) ∧
    (∀ v, resolveDeepTokenDocument stage.preprocessedTokens = Except.ok v →
      (resolveReferences resolveDeepTokenDocument stage).1.referenceResolvedTokens = v ∧
      (resolveReferences resolveDeepTokenDocument stage).1.referenceResolution =
          RefResolution.resolved ∧
      (resolveReferences resolveDeepTokenDocument stage).2 = []) := by
  constructor
  · intro e he
    simp [resolveReferences, he, handleReferenceResolutionError]
  · intro v hv
    simp [resolveReferences, hv]

/-- Witness for `resolveReferences_failure_policy`: a resolver that throws
`"boom"` on the null document. -/
theorem resolveReferences_failure_policy_witness :
    (resolveReferences (fun _ => Except.error "boom") ⟨Value.null⟩).1.referenceResolvedTokens =
        Value.null ∧
    (resolveReferences (fun _ => Except.error "boom") ⟨Value.null⟩).1.referenceResolution =
        RefResolution.skipped ∧
    (resolveReferences (fun _ => Except.error "boom") ⟨Value.null⟩).2 =
        ["boom", "Reference resolution skipped: " ++ "boom"] :=
  (resolveReferences_failure_policy (fun _ => Except.error "boom") ⟨Value.null⟩).1 "boom" rfl

/-- C5: for every pipeline run given both a filter list and a transform
list, Stages 8–9 produce exactly
`applyTransforms (applyFilters aliasResolvedTokens filters) transforms`:
filters (a logical AND over each token) run on the alias-resolved table
first, and transforms see only the already-filtered table. -/
theorem filters_run_before_transforms (aliasResolvedTokens : ResolvedTokens)
    (filters : List Filter) (transforms : List Transform) :
    filterThenTransformStages aliasResolvedTokens (some filters) (some transforms) =
      applyTransforms (applyFilters aliasResolvedTokens filters) transforms := by
  unfold filterThenTransformStages applyTransformStage applyFilterStage
  cases filters with
  | nil =>
    cases transforms with
    | nil => simp [applyFilters, applyTransforms]
    | cons t ts => simp [applyFilters]
  | cons f fs =>
    cases transforms with
    | nil => simp [applyTransforms]
    | cons t ts => simp

theorem scheduleStep_length {α β : Type} (f : β → α) (inputs : List β)
    (acc : List (Option α)) (i : Nat) :
    (scheduleStep f inputs acc i).length = acc.length := by
  unfold scheduleStep
  cases h : inputs[i]? with
  | none => rfl
  | some x => simp

theorem foldl_scheduleStep_getElem {α β : Type} (f : β → α) (inputs : List β) :
    ∀ (order : List Nat) (acc : List (Option α)), acc.length = inputs.length →
      (order.foldl (scheduleStep f inputs) acc).length = inputs.length ∧
      ∀ j (hj : j < inputs.length),
        (order.foldl (scheduleStep f inputs) acc)[j]? =
          if j ∈ order then some (some (f (inputs[j]))) else acc[j]? := by
  intro order
  induction order with
  | nil => intro acc hlen; simpa using hlen
  | cons i rest ih =>
    intro acc hlen
    have hstep : (scheduleStep f inputs acc i).length = inputs.length := by
      rw [scheduleStep_length]; exact hlen
    obtain ⟨ihlen, ihget⟩ := ih (scheduleStep f inputs acc i) hstep
    refine ⟨by simpa using ihlen, ?_⟩
    intro j hj
    have hfold :
        ((i :: rest).foldl (scheduleStep f inputs) acc) =
          rest.foldl (scheduleStep f inputs) (scheduleStep f inputs acc i) := rfl
    rw [hfold, ihget j hj]
    by_cases hmem : j ∈ rest
    · simp [hmem]
    · simp only [hmem, if_false]
      unfold scheduleStep
      cases h : inputs[i]? with
      | none =>
        have hge : inputs.length ≤ i := by
          simpa using List.getElem?_eq_none_iff.mp h
        have hne : j ≠ i := by omega
        simp [List.mem_cons, hne, hmem]
      | some x =>
        have hi : i < inputs.length := by
          by_contra hcon
          have : inputs[i]? = none := List.getElem?_eq_none_iff.mpr (by omega)
          simp [this] at h
        by_cases hij : i = j
        · subst hij
          have hx : x = inputs[i] := by
            have hgi := List.getElem?_eq_getElem hi
            rw [h] at hgi
            exact Option.some_inj.mp hgi
          have hset : (acc.set i (some (f x)))[i]? = some (some (f x)) :=
            List.getElem?_set_self (by omega)
          subst hx
          simp [List.mem_cons, hset]
        · have hnotin : j ∉ (i :: rest) := by
            simp only [List.mem_cons]
            push_neg
            exact ⟨fun hc => hij hc.symm, hmem⟩
          rw [List.getElem?_set_ne hij]
          simp [hnotin]

/-- Value of a slot of `runSchedule` after all completions: a completed
slot holds its own task's result, untouched slots stay `none`. -/
theorem runSchedule_getElem {α β : Type} (f : β → α) (inputs : List β)
    (completionOrder : List Nat) :
    (runSchedule f inputs completionOrder).length = inputs.length ∧
    ∀ j (hj : j < inputs.length),
      (runSchedule f inputs completionOrder)[j]? =
        if j ∈ completionOrder then some (some (f (inputs[j]))) else some none := by
  have base : (List.replicate inputs.length (none : Option α)).length = inputs.length := by
    simp
  have h := foldl_scheduleStep_getElem f inputs completionOrder
    (List.replicate inputs.length none) base
  have huf : runSchedule f inputs completionOrder =
      completionOrder.foldl (scheduleStep f inputs) (List.replicate inputs.length none) := by
    unfold runSchedule
    congr 1
  rw [huf]
  refine ⟨h.1, ?_⟩
  intro j hj
  rw [h.2 j hj]
  by_cases hmem : j ∈ completionOrder
  · simp [hmem]
  · simp [hmem, List.getElem?_replicate, hj]

/-- C4: `resolveAllPermutations` returns exactly one result per enumerated
permutation, positioned in enumeration order — slot `j` holds the result of
resolving permutation `j` — for every completion order of the parallel
tasks that completes each task at least once. -/
theorem resolveAllPermutations_order
    (resolveOne : List (String × String) → PermutationResult)
    (permutationInputs : List (List (String × String)))
    (completionOrder : List Nat)
    (hall : ∀ i, i < permutationInputs.length → i ∈ completionOrder) :
    resolveAllPermutations resolveOne permutationInputs completionOrder =
      permutationInputs.map (fun mi => some (resolveOne mi)) := by
  obtain ⟨hlen, hget⟩ := runSchedule_getElem resolveOne permutationInputs completionOrder
  have hra : resolveAllPermutations resolveOne permutationInputs completionOrder =
      runSchedule resolveOne permutationInputs completionOrder := rfl
  rw [hra]
  apply List.ext_getElem?
  intro j
  by_cases hj : j < permutationInputs.length
  · rw [hget j hj, List.getElem?_map, List.getElem?_eq_getElem hj]
    simp [hall j hj]
  · have h1 : (runSchedule resolveOne permutationInputs completionOrder)[j]? = none := by
      apply List.getElem?_eq_none_iff.mpr
      omega
    have h2 : (permutationInputs.map (fun mi => some (resolveOne mi)))[j]? = none := by
      apply List.getElem?_eq_none_iff.mpr
      simpa using (by omega : permutationInputs.length ≤ j)
    rw [h1, h2]

/-- Witness for `resolveAllPermutations_order`: one permutation, completed
once. -/
theorem resolveAllPermutations_order_witness :
    resolveAllPermutations (fun mi => ⟨[], mi⟩) [[("theme", "dark")]] [0] =
      [some ⟨[], [("theme", "dark")]⟩] :=
  resolveAllPermutations_order (fun mi => ⟨[], mi⟩) [[("theme", "dark")]] [0]
    (fun i hi => by
      have : i = 0 := by simpa using hi
      simp [this])

/-- C6: for every object node of a token document, `validateTokenOrGroup`
classifies the node as a token exactly when it carries a `$value` or `$ref`
key, and every node carrying neither key is classified as a group. -/
theorem validateTokenOrGroup_classification (fields : List (String × Value)) :
    ((validateTokenOrGroup (Value.obj fields)).type = NodeClass.token ↔
      ((Value.obj fields).hasKey "$value" || (Value.obj fields).hasKey "$ref") = true) ∧
    (((Value.obj fields).hasKey "$value" || (Value.obj fields).hasKey "$ref") = false →
      (validateTokenOrGroup (Value.obj fields)).type = NodeClass.group) := by
  by_cases h : ((Value.obj fields).hasKey "$value" || (Value.obj fields).hasKey "$ref") = true
  · constructor
    · simp [validateTokenOrGroup, validateToken, h]
    · intro hc
      rw [h] at hc
      exact absurd hc (by simp)
  · have h0 : ((Value.obj fields).hasKey "$value" || (Value.obj fields).hasKey "$ref") = false := by
      simpa using h
    constructor
    · simp [validateTokenOrGroup, validateToken, validateGroup, h0]
    · intro _
      simp [validateTokenOrGroup, validateToken, validateGroup, h0]

/-- Witness for `validateTokenOrGroup_classification`: the empty object
carries neither key and is classified as a group. -/
theorem validateTokenOrGroup_classification_witness :
    (validateTokenOrGroup (Value.obj [])).type = NodeClass.group :=
  (validateTokenOrGroup_classification []).2 rfl

/-- C7: every built-in value transform — the factory-built color
transforms, `fontWeightToNumber`, `durationToMs` and `durationToSeconds` —
preserves the token frame: for every input token (and any behavior of the
external host collaborators) the returned token's `path` and `$type` (and
every other field except `$value`) equal the input token's. -/
theorem builtin_value_transforms_preserve_frame :
    (∀ converter, preservesFrame (createColorTransform converter).transform) ∧
    (∀ culoriConverter formatCss mode,
      preservesFrame (createModernColorTransform culoriConverter formatCss mode).transform) ∧
    preservesFrame fontWeightToNumber.transform ∧
    (∀ (jsNumber : JsNumber) (jsNumToString : JsNumToString) (jsParseFloat : JsParseFloat),
      preservesFrame (durationToMs jsNumber jsNumToString jsParseFloat).transform) ∧
    (∀ (jsNumber : JsNumber) (jsNumToString : JsNumToString) (jsParseFloat : JsParseFloat),
      preservesFrame (durationToSeconds jsNumber jsNumToString jsParseFloat).transform) := by
  refine ⟨?_, ?_, ?_, ?_, ?_⟩
  · intro converter t
    simp only [createColorTransform]
    repeat' split
    all_goals simp
  · intro culoriConverter formatCss mode t
    simp only [createModernColorTransform]
    repeat' split
    all_goals simp
  · intro t
    simp only [fontWeightToNumber]
    repeat' split
    all_goals simp
  · intro jsNumber jsNumToString jsParseFloat t
    simp only [durationToMs]
    repeat' split
    all_goals simp
  · intro jsNumber jsNumToString jsParseFloat t
    simp only [durationToSeconds]
    repeat' split
    all_goals simp

/-- C8: `bundleAsCss` raises `BasePermutationError` exactly when no element
of its bundle data is marked `isBase`; with a base item present it never
raises `BasePermutationError` (it may still raise `ConfigurationError` for
a missing formatter, or succeed). -/
theorem bundleAsCss_base_permutation_error (bundleData : List BundleDataItem)
    (resolver : ResolverDocument) (options : Option CssRendererOptions)
    (formatTokens : Option (ResolvedTokens → ResolvedCssOptions → String)) :
    (∃ m, bundleAsCss bundleData resolver options formatTokens =
        Except.error (BundleError.basePermutation m)) ↔
      ∀ item ∈ bundleData, item.isBase = false := by
  cases hfind : bundleData.find? (·.isBase) with
  | none =>
    constructor
    · intro _ item hmem
      have := List.find?_eq_none.mp hfind item hmem
      simpa using this
    · intro _
      exact ⟨"Base permutation not found in bundle data", by simp [bundleAsCss, hfind]⟩
  | some baseItem =>
    constructor
    · rintro ⟨m, hm⟩
      exfalso
      cases hft : formatTokens with
      | none => simp [bundleAsCss, hfind, hft] at hm
      | some ft => simp [bundleAsCss, hfind, hft] at hm
    · intro hall
      exfalso
      have hmem := List.mem_of_find?_eq_some hfind
      have hbase : baseItem.isBase = true := by
        have := List.find?_some hfind
        simpa using this
      rw [hall baseItem hmem] at hbase
      exact Bool.noConfusion hbase

/-- C2 (amended): in cascade CSS bundling a non-base permutation deviating
from base in more than one modifier emits no block; and for a permutation
whose token set carries `_sourceModifier` metadata, the block's token set
(`cssTokensToInclude`) contains only tokens whose `_sourceModifier` matches
the deviating modifier-context source.  (Without any source metadata the
code falls back to the full token set — see the counterexample.) -/
theorem cascade_single_dimension_override (item baseItem : BundleDataItem)
    (options : Option CssRendererOptions)
    (formatTokens : ResolvedTokens → ResolvedCssOptions → String) :
    (countModifierDifferences item.modifierInputs baseItem.modifierInputs > 1 →
      formatModifierPermutation item baseItem options formatTokens = none) ∧
    (hasSourceMetadata item.tokens = true →
      ∀ e ∈ cssTokensToInclude item baseItem,
        ∃ s, getSourceModifier e.2 = some s ∧
          lowerStr s = getExpectedSource item.modifierInputs baseItem.modifierInputs) := by
  constructor
  · intro h
    unfold formatModifierPermutation
    simp [h]
  · intro hmeta e he
    simp only [cssTokensToInclude, hmeta] at he
    simp only [Bool.not_true, Bool.and_false, if_false] at he
    rw [if_neg (by simp)] at he
    rw [filterTokensBySource, List.mem_filter] at he
    obtain ⟨_, hp⟩ := he
    cases hs : e.2.sourceModifier with
    | none => rw [hs] at hp; exact absurd hp (by simp)
    | some s =>
      rw [hs] at hp
      refine ⟨s, ?_, ?_⟩
      · simpa [getSourceModifier] using hs
      · simpa using hp

/-- C2 counterexample: a single-dimension dark-theme permutation whose
tokens carry no `_sourceModifier` metadata still emits a block, and that
block renders the full token set — including `color.text`, whose
`_sourceModifier` is absent and so matches no `modifier-context` pair —
contradicting the claim that only matching tokens are emitted. -/
theorem cascade_fallback_counterexample :
    countModifierDifferences cexDarkItem.modifierInputs cexBaseItem.modifierInputs = 1 ∧
    getSourceModifier cexDarkToken = none ∧
    formatModifierPermutation cexDarkItem cexBaseItem none nameListingFormatter =
      some ("/* Modifier: theme=dark */\n" ++ "color.text") := by
  refine ⟨by decide, rfl, by rfl⟩

theorem strContainsProp_self (n : String) : strContainsProp n n :=
  ⟨"", "", by simp⟩

theorem strContainsProp_append_left (a : String) {s n : String}
    (h : strContainsProp s n) : strContainsProp (a ++ s) n := by
  obtain ⟨p, q, hpq⟩ := h
  exact ⟨a ++ p, q, by rw [hpq]; simp [String.append_assoc]⟩

theorem strContainsProp_append_right (b : String) {s n : String}
    (h : strContainsProp s n) : strContainsProp (s ++ b) n := by
  obtain ⟨p, q, hpq⟩ := h
  exact ⟨p, q ++ b, by rw [hpq]; simp [String.append_assoc]⟩

theorem strContainsProp_trans {a b c : String} (h₁ : strContainsProp a b)
    (h₂ : strContainsProp b c) : strContainsProp a c := by
  obtain ⟨p, q, hpq⟩ := h₁
  obtain ⟨r, s, hrs⟩ := h₂
  exact ⟨p ++ r, s ++ q, by rw [hpq, hrs]; simp [String.append_assoc]⟩

theorem mem_joinWith_infix (sep : String) {x : String} :
    ∀ {l : List String}, x ∈ l → strContainsProp (joinWith sep l) x := by
  intro l
  induction l with
  | nil => intro h; exact absurd h (List.not_mem_nil x)
  | cons y ys ih =>
    intro h
    rcases List.mem_cons.mp h with heq | hmem
    · subst heq
      cases ys with
      | nil => exact ⟨"", "", by simp [joinWith]⟩
      | cons z zs =>
        exact ⟨"", sep ++ joinWith sep (z :: zs), by simp [joinWith, String.append_assoc]⟩
    · have hys : ys ≠ [] := by
        intro hnil
        rw [hnil] at hmem
        exact absurd hmem (List.not_mem_nil x)
      obtain ⟨p, q, hpq⟩ := ih hmem
      cases ys with
      | nil => exact absurd rfl hys
      | cons z zs =>
        refine ⟨y ++ sep ++ p, q, ?_⟩
        have hstep : joinWith sep (y :: z :: zs) = y ++ sep ++ joinWith sep (z :: zs) := rfl
        rw [hstep, hpq]
        simp [String.append_assoc]

theorem jsBlocksOf_foldl (metadata : BundleMetadata) (ft : ResolvedTokens → String) :
    ∀ (l : List BundleDataItem) (acc : List String),
      l.foldl
        (fun acc item => do
          let blocks ← acc
          match (some ft : Option (ResolvedTokens → String)) with
          | none => Except.error (BundleError.configuration "JS formatter was not provided")
          | some ft => Except.ok (blocks ++ [jsBlockFor metadata ft item]))
        (Except.ok acc) =
      Except.ok (acc ++ l.map (jsBlockFor metadata ft)) := by
  intro l
  induction l with
  | nil => intro acc; simp
  | cons item rest ih =>
    intro acc
    simp only [List.foldl_cons, List.map_cons]
    have hinit : (do
        let blocks ← (Except.ok acc : Except BundleError (List String))
        Except.ok (blocks ++ [jsBlockFor metadata ft item])) =
        (Except.ok (acc ++ [jsBlockFor metadata ft item]) : Except BundleError (List String)) :=
      rfl
    rw [hinit, ih]
    simp

theorem lookup_append_right_isSome (k : String) (v : Value) :
    ∀ (l : List (String × Value)), (((l ++ [(k, v)]).lookup k).isSome) = true := by
  intro l
  induction l with
  | nil => simp [List.lookup]
  | cons kv rest ih =>
    by_cases h : (k == kv.1) = true
    · simp [List.lookup, h]
    · simp only [List.cons_append, List.lookup]
      rw [show (k == kv.1) = false by simpa using h]
      exact ih

theorem strBeq_comm (a b : String) : (a == b) = (b == a) := by
  by_cases h : a = b
  · subst h; rfl
  · have h1 : (a == b) = false := by simpa using h
    have h2 : (b == a) = false := by
      have : ¬b = a := fun he => h he.symm
      simpa using this
    rw [h1, h2]

theorem lookup_map_update_isSome (k : String) (v : Value) :
    ∀ (fields : List (String × Value)), (fields.any (fun kv => kv.1 == k)) = true →
      (((fields.map (fun kv => if kv.1 == k then (kv.1, v) else kv)).lookup k).isSome) =
        true := by
  intro fields
  induction fields with
  | nil => intro h; simp at h
  | cons kv rest ih =>
    intro h
    simp only [List.map_cons]
    by_cases hk : (kv.1 == k) = true
    · rw [if_pos hk]
      have hgood : (k == kv.1) = true := by rw [strBeq_comm]; exact hk
      simp [List.lookup, hgood]
    · have hkf : (kv.1 == k) = false := by simpa using hk
      rw [if_neg hk]
      have hbad : (k == kv.1) = false := by rw [strBeq_comm]; exact hkf
      have hrest : rest.any (fun kv => kv.1 == k) = true := by
        rcases List.any_eq_true.mp h with ⟨x, hx, hpx⟩
        rcases List.mem_cons.mp hx with heq | hxr
        · rw [heq] at hpx
          rw [hkf] at hpx
          exact Bool.noConfusion hpx
        · exact List.any_eq_true.mpr ⟨x, hxr, hpx⟩
      simp only [List.lookup, hbad]
      exact ih hrest

theorem objAssign_lookup_self (fields : List (String × Value)) (k : String) (v : Value) :
    (((objAssign fields k v).lookup k).isSome) = true := by
  unfold objAssign
  by_cases hany : (fields.any (fun kv => kv.1 == k)) = true
  · rw [if_pos hany]
    exact lookup_map_update_isSome k v fields hany
  · rw [if_neg hany]
    exact lookup_append_right_isSome k v fields

theorem lookup_map_update_mono (k : String) (v : Value) (target : String) :
    ∀ (fields : List (String × Value)), ((fields.lookup target).isSome) = true →
      (((fields.map (fun kv => if kv.1 == k then (kv.1, v) else kv)).lookup target).isSome) =
        true := by
  intro fields
  induction fields with
  | nil => intro h; simp [List.lookup] at h
  | cons kv rest ih =>
    intro h
    simp only [List.map_cons]
    by_cases ht : (target == kv.1) = true
    · by_cases hk : (kv.1 == k) = true
      · rw [if_pos hk]
        simp [List.lookup, ht]
      · rw [if_neg hk]
        simp [List.lookup, ht]
    · have htf : (target == kv.1) = false := by simpa using ht
      have hrest : ((rest.lookup target).isSome) = true := by
        simp only [List.lookup, htf] at h
        exact h
      by_cases hk : (kv.1 == k) = true
      · rw [if_pos hk]
        simp only [List.lookup, htf]
        exact ih hrest
      · rw [if_neg hk]
        simp only [List.lookup, htf]
        exact ih hrest

theorem lookup_append_mono (tail : List (String × Value)) (target : String) :
    ∀ (l : List (String × Value)), ((l.lookup target).isSome) = true →
      (((l ++ tail).lookup target).isSome) = true := by
  intro l
  induction l with
  | nil => intro h; simp [List.lookup] at h
  | cons kv rest ih =>
    intro h
    by_cases ht : (target == kv.1) = true
    · simp [List.lookup, ht]
    · have htf : (target == kv.1) = false := by simpa using ht
      simp only [List.lookup] at h
      rw [htf] at h
      simp only [List.cons_append, List.lookup]
      rw [htf]
      exact ih h

theorem objAssign_lookup_mono (fields : List (String × Value)) (k : String) (v : Value)
    (target : String) (h : ((fields.lookup target).isSome) = true) :
    (((objAssign fields k v).lookup target).isSome) = true := by
  unfold objAssign
  by_cases hany : (fields.any (fun kv => kv.1 == k)) = true
  · rw [if_pos hany]
    exact lookup_map_update_mono k v target fields h
  · rw [if_neg hany]
    exact lookup_append_mono [(k, v)] target fields h

theorem foldl_objAssign_mono (keyOf : BundleDataItem → String)
    (valOf : BundleDataItem → Value) :
    ∀ (l : List BundleDataItem) (acc : List (String × Value)) (target : String),
      ((acc.lookup target).isSome) = true →
      (((l.foldl (fun acc item => objAssign acc (keyOf item) (valOf item)) acc).lookup
        target).isSome) = true := by
  intro l
  induction l with
  | nil => intro acc target h; simpa using h
  | cons item rest ih =>
    intro acc target h
    simp only [List.foldl_cons]
    exact ih _ target (objAssign_lookup_mono _ _ _ _ h)

theorem foldl_objAssign_mem (keyOf : BundleDataItem → String)
    (valOf : BundleDataItem → Value) :
    ∀ (l : List BundleDataItem) (acc : List (String × Value)) (item : BundleDataItem),
      item ∈ l →
      (((l.foldl (fun acc item => objAssign acc (keyOf item) (valOf item)) acc).lookup
        (keyOf item)).isSome) = true := by
  intro l
  induction l with
  | nil => intro acc item h; exact absurd h (List.not_mem_nil item)
  | cons hd tl ih =>
    intro acc item h
    simp only [List.foldl_cons]
    rcases List.mem_cons.mp h with heq | hmem
    · subst heq
      exact foldl_objAssign_mono keyOf valOf tl _ _ (objAssign_lookup_self _ _ _)
    · exact ih _ item hmem

/-- C3 (amended): the JS module bundle keys every permutation's sub-object
by the camel-cased form of the stable dash key (dimension values in
dimension order joined by `-`), with the raw dash key kept in the adjacent
comment, and emits `_meta` alongside; the JSON bundle keys every
permutation by the `dimension=value|…` stable key instead of the
dash-joined key. -/
theorem keyed_bundle_stable_keys
    (bundleData : List BundleDataItem) (resolver : ResolverDocument)
    (options : Option JsModuleRendererOptions)
    (ft : ResolvedTokens → String) (ftj : ResolvedTokens → Value) :
    (∃ out, bundleAsJsModule bundleData resolver options (some ft) = Except.ok out ∧
      strContainsProp out "  _meta: " ∧
      ∀ item ∈ bundleData,
        strContainsProp out
          ("  // " ++
            buildStableDashKey item.modifierInputs (buildMetadata resolver).dimensions
              (buildMetadata resolver).defaults ++ "\n  " ++
            jsonQuote (toCamelKey
              (buildStableDashKey item.modifierInputs (buildMetadata resolver).dimensions
                (buildMetadata resolver).defaults)) ++ ": ")) ∧
    (∀ item ∈ bundleData,
      (((jsonBundleTokens bundleData (buildMetadata resolver) ftj).lookup
        (buildStablePermutationKey (normalizeModifierInputs item.modifierInputs)
          (buildMetadata resolver).dimensions)).isSome) = true) := by
  constructor
  · have hok : jsBlocksOf bundleData (buildMetadata resolver) (some ft) =
        Except.ok (bundleData.map (jsBlockFor (buildMetadata resolver) ft)) := by
      have := jsBlocksOf_foldl (buildMetadata resolver) ft bundleData []
      simpa [jsBlocksOf] using this
    unfold bundleAsJsModule
    simp only [hok]
    refine ⟨_, rfl, ?_, ?_⟩
    · exact strContainsProp_append_right _ (strContainsProp_append_right _
        (strContainsProp_append_right _ (strContainsProp_append_right _
          (strContainsProp_append_left _ (strContainsProp_append_right _
            (strContainsProp_append_right _ (strContainsProp_self _)))))))
    · intro item hitem
      have hmem : jsBlockFor (buildMetadata resolver) ft item ∈
          bundleData.map (jsBlockFor (buildMetadata resolver) ft) :=
        List.mem_map_of_mem _ hitem
      have hjoin : strContainsProp
          (joinWith ",\n" (bundleData.map (jsBlockFor (buildMetadata resolver) ft)))
          (jsBlockFor (buildMetadata resolver) ft item) :=
        mem_joinWith_infix ",\n" hmem
      have hneedle : strContainsProp (jsBlockFor (buildMetadata resolver) ft item)
          ("  // " ++
            buildStableDashKey item.modifierInputs (buildMetadata resolver).dimensions
              (buildMetadata resolver).defaults ++ "\n  " ++
            jsonQuote (toCamelKey
              (buildStableDashKey item.modifierInputs (buildMetadata resolver).dimensions
                (buildMetadata resolver).defaults)) ++ ": ") :=
        ⟨"", replaceChar newlineChar "\n  "
          (extractObjectFromJsModule (ft (stripInternalMetadata item.tokens))), rfl⟩
      have hcore := strContainsProp_trans hjoin hneedle
      exact strContainsProp_append_right _ (strContainsProp_append_right _
        (strContainsProp_append_right _ (strContainsProp_append_left _
          (strContainsProp_append_right _ (strContainsProp_append_right _
            (strContainsProp_append_right _ (strContainsProp_append_left _ hcore)))))))
  · intro item hitem
    exact foldl_objAssign_mem
      (fun item => buildStablePermutationKey (normalizeModifierInputs item.modifierInputs)
        (buildMetadata resolver).dimensions)
      (fun item => ftj (stripInternalMetadata item.tokens))
      bundleData [] item hitem

set_option maxRecDepth 100000 in
/-- C3 counterexample: for the concrete theme × platform bundle, the JS
module emits the dark/mobile permutation under the key `"darkMobile"` —
the camel-cased form — and never under the dash-joined key
`"dark-mobile"`; the JSON bundle keys it `"theme=dark|platform=mobile"`,
also not the dash-joined key.  This falsifies the claim that the emitted
sub-object keys equal the dimension values joined by `-`. -/
theorem keyed_bundle_dash_key_counterexample :
    strContainsSub cexJsOutput (jsonQuote "darkMobile" ++ ":") = true ∧
    strContainsSub cexJsOutput (jsonQuote "dark-mobile") = false ∧
    strContainsSub cexJsonOutput (jsonQuote "theme=dark|platform=mobile") = true ∧
    strContainsSub cexJsonOutput (jsonQuote "dark-mobile") = false := by
  exact ⟨by rfl, by rfl, by rfl, by rfl⟩

/-- C10: the built-in filters `isBase()` and `isAlias()` are exact
complements: for every resolved token, `isBase().filter t` is the boolean
negation of `isAlias().filter t`, and both decide membership solely by
whether `t.originalValue` contains an alias pattern (`hasAliases`). -/
theorem isBase_isAlias_complement :
    ∀ t : ResolvedToken,
      isBase.filter t = !isAlias.filter t ∧
      isAlias.filter t = hasAliases t.originalValue ∧
      isBase.filter t = !hasAliases t.originalValue :=
  fun _ => ⟨rfl, rfl, rfl⟩

end Dispersa
